import Mathlib

/-!
Shallow embedding of the `backend` Go package: a reflection-based
dependency-injection container (`injector.go`), the HTTP dispatch adapter
built on it (`NewRouter` and friends), and the permission-assertion
combinators of the JWT middleware (`jwt.go`).

Modelling decisions, all driven by the Go source:

* `reflect.Type` values are modelled as natural-number type identifiers
  (`Ty`).  Go guarantees one `reflect.Type` per runtime type, and the
  container only ever compares types for equality and uses them as map
  keys, so any type with decidable equality is faithful.
* A Go `interface{}` holding a non-function value is a `Val`.  Besides its
  runtime type (`ty`) a `Val` carries an allocation identity (`id`,
  standing for the pointer/heap identity that distinguishes two
  structurally equal allocations), a numeric payload (`num`, enough for the
  arithmetic used by the handlers in the repository's tests), whether the
  dynamic type implements `io.Closer` (`isCloser`), and whether its
  `Close()` method would return a non-nil error (`closeErr`); the releaser
  closure in `GetInstance` discards that error, which is visible in the
  model because `closeErr` never influences any result component.
* Go functions (used both as transient factories and as `Invoke` targets)
  are `GoFn`: the declared parameter types (`ins`, i.e. `In(0..NumIn)`),
  the declared result types (`outs`, i.e. `Out(0..NumOut)`), and a `body`.
  Calling a Go function may allocate, so `body` receives the current
  fresh-identity counter and returns the produced values together with the
  advanced counter.  A factory such as
  `func() *T { return &T{...} }` is modelled by a body that returns a value
  whose `id` is the fresh counter and bumps the counter; a factory
  returning a cached pointer is a body that ignores the counter.
* The two registry maps `singletons` / `transients` are association lists;
  the registration guards of the source keep their keys unique, so lookup
  agrees with Go map indexing.
* Effects are traces: `Event.factoryCall t` records a reflective call of
  the transient factory for `t`, `Event.callFn args` records the reflective
  call of the `Invoke` target with the assembled argument list, and
  `Event.close v` records `v.(io.Closer).Close()` being invoked.
* Go's `defer releaser()` in `Invoke` runs the deferred releasers, most
  recently deferred first, on *every* return of `Invoke` — including the
  early `return nil, err` taken when a `GetInstance` call fails.  `Invoke`
  below reproduces exactly that.
* `AddTransient` calls `f.Out(0)` after checking only `Kind() == Func`;
  when the callable declares no return values Go's reflect panics, which
  the model records as `Outcome.panic` (the registry is not mutated).
-/

set_option autoImplicit false

namespace Backend

/-- Type identifiers standing for `reflect.Type` values. -/
abbrev Ty := Nat

/-- A Go `interface{}` value that is not a function.  `id` is the heap
identity distinguishing allocations; `num` is a numeric payload; `isCloser`
says whether the dynamic type implements `io.Closer`; `closeErr` says
whether `Close()` would return a non-nil error (which the container
discards). -/
structure Val where
  ty : Ty
  id : Nat
  num : Int
  isCloser : Bool
  closeErr : Bool
deriving Repr, DecidableEq, Inhabited

/-- The error values of `error.go`. -/
inductive Err where
  | typeAlreadyRegistered
  | typeNotRegistered
  | invalidFactory
  | notInvokable
deriving Repr, DecidableEq

/-- Observable effects of container operations. -/
inductive Event where
  | factoryCall (t : Ty)
  | callFn (args : List Val)
  | close (v : Val)
deriving Repr, DecidableEq

/-- The releaser closure returned by `GetInstance`: either `func() {}` or
`func() { i.(io.Closer).Close() }` for the captured instance. -/
inductive Release where
  | noop
  | closeVal (v : Val)
deriving Repr, DecidableEq

/-- Running a releaser closure: the no-op emits nothing, the closing
releaser invokes `Close()` on the captured value (its returned error is
discarded — no result is produced, only the event). -/
def Release.run : Release → List Event
  | .noop => []
  | .closeVal v => [.close v]

/-- A Go function value: declared parameter types, declared result types,
and its behaviour.  `body args n` is the reflective call with argument list
`args` while the fresh-identity counter is `n`; it yields the returned
values and the advanced counter. -/
structure GoFn where
  ins : List Ty
  outs : List Ty
  body : List Val → Nat → List Val × Nat

/-- A Go `interface{}` as passed to `AddTransient` / `Invoke`: either a
non-function value (`reflect.Kind ≠ Func`) or a function. -/
inductive GoValue where
  | prim (v : Val)
  | fn (f : GoFn)

/-- Association-list lookup, the model of Go map indexing. -/
def lookupTy {α : Type} (t : Ty) : List (Ty × α) → Option α
  | [] => none
  | (t', x) :: rest => if t' = t then some x else lookupTy t rest

/-- The `Injector` struct: its two registry maps. -/
structure Injector where
  singletons : List (Ty × Val)
  transients : List (Ty × GoFn)

/-- `NewInjector` creates a new `Injector` with empty maps. -/
def NewInjector : Injector := ⟨[], []⟩

/-- `typeIsRegistered` returns true if the given type is registered in the
injector (in either map). -/
def Injector.typeIsRegistered (i : Injector) (t : Ty) : Bool :=
  (lookupTy t i.singletons).isSome || (lookupTy t i.transients).isSome

/-- Outcome of a registration call: normal return with `nil` error,
normal return with a non-nil error, or a runtime panic raised by the
reflect package. -/
inductive Outcome where
  | ok
  | err (e : Err)
  | panic
deriving Repr, DecidableEq

/-- `AddSingleton` registers the given instance as a singleton for the
instance's own runtime type.  The returned injector is the post-state of
the receiver (unchanged when an error is returned). -/
def Injector.AddSingleton (i : Injector) (inst : Val) : Injector × Outcome :=
  if i.typeIsRegistered inst.ty then
    (i, .err .typeAlreadyRegistered)
  else
    ({ i with singletons := (inst.ty, inst) :: i.singletons }, .ok)

/-- `AddTransient` registers the given factory function as a transient for
the factory's first declared return type.  Only `Kind() == Func` is checked
before `f.Out(0)` is read, so a function with no return values makes
reflect panic (`Outcome.panic`). -/
def Injector.AddTransient (i : Injector) (factory : GoValue) : Injector × Outcome :=
  match factory with
  | .prim _ => (i, .err .invalidFactory)
  | .fn f =>
    match f.outs with
    | [] => (i, .panic)
    | t :: _ =>
      if i.typeIsRegistered t then
        (i, .err .typeAlreadyRegistered)
      else
        ({ i with transients := (t, f) :: i.transients }, .ok)

/-- `GetInstance` returns an instance of the given type, a releaser, and an
error (the error case carries neither instance nor releaser).  State
threading: `n` is the fresh-identity counter; the call returns the result,
the new counter and the trace of effects. -/
def Injector.GetInstance (i : Injector) (t : Ty) (n : Nat) :
    Except Err (Val × Release) × Nat × List Event :=
  match lookupTy t i.singletons with
  | some inst => (.ok (inst, .noop), n, [])
  | none =>
    match lookupTy t i.transients with
    | some f =>
      let r := f.body [] n
      let inst := r.1.headI
      if inst.isCloser then
        (.ok (inst, .closeVal inst), r.2, [.factoryCall t])
      else
        (.ok (inst, .noop), r.2, [.factoryCall t])
    | none => (.error .typeNotRegistered, n, [])

/-- The resolution loop of `Invoke` (`for j := len(args); j < f.NumIn()`):
resolve each remaining parameter type in declaration order.  Returns the
resolved values (or the first error), the stack of deferred releasers with
the most recently deferred first — kept even on the error path, because Go
runs already-deferred releasers on the early error return — the new
counter, and the trace. -/
def Injector.resolveArgs (i : Injector) :
    List Ty → Nat → Except Err (List Val) × List Release × Nat × List Event
  | [], n => (.ok [], [], n, [])
  | t :: ts, n =>
    match i.GetInstance t n with
    | (.error e, n', evs) => (.error e, [], n', evs)
    | (.ok (v, rel), n', evs) =>
      match i.resolveArgs ts n' with
      | (.error e, rels, n'', evs') => (.error e, rels ++ [rel], n'', evs ++ evs')
      | (.ok vs, rels, n'', evs') => (.ok (v :: vs), rels ++ [rel], n'', evs ++ evs')

/-- `Invoke` calls the given function, passing the initial arguments and
then injecting instances for the remaining declared parameters.  On a
resolution failure it returns that error at once — the target is never
called — and the releasers already deferred run (most recent first) as
part of the return.  On success the target is called with the assembled
argument list, then every deferred releaser runs exactly once. -/
def Injector.Invoke (i : Injector) (fn : GoValue) (args : List Val) (n : Nat) :
    Except Err (List Val) × Nat × List Event :=
  match fn with
  | .prim _ => (.error .notInvokable, n, [])
  | .fn f =>
    match i.resolveArgs (f.ins.drop args.length) n with
    | (.error e, rels, n', evs) =>
      (.error e, n', evs ++ rels.flatMap Release.run)
    | (.ok vs, rels, n', evs) =>
      let r := f.body (args ++ vs) n'
      (.ok r.1, r.2, evs ++ Event.callFn (args ++ vs) :: rels.flatMap Release.run)

/-- A registration call, for stating the registry invariant over arbitrary
startup sequences. -/
inductive RegOp where
  | sing (v : Val)
  | trans (g : GoValue)

/-- Post-state of one registration call. -/
def applyOp (i : Injector) : RegOp → Injector
  | .sing v => (i.AddSingleton v).1
  | .trans g => (i.AddTransient g).1

/-- Post-state of a sequence of registration calls on a fresh injector. -/
def regOps (ops : List RegOp) : Injector :=
  ops.foldl applyOp NewInjector

/-- Number of providers (of either kind) registered for `t`. -/
def providerCount (i : Injector) (t : Ty) : Nat :=
  (i.singletons.countP fun p => p.1 == t) + (i.transients.countP fun p => p.1 == t)

/-- The runtime type identifier of `*gin.Engine`. -/
def engineTy : Ty := 100

/-- The `Router` struct: the engine obtained from the container, and the
container itself. -/
structure Router where
  g : Val
  di : Injector

/-- `NewRouter` creates a new `Router`: it asks the container for the
`*gin.Engine` instance (discarding the releaser), propagates the error if
the lookup fails, and otherwise stores the engine and the container. -/
def NewRouter (di : Injector) (n : Nat) : Except Err Router × Nat × List Event :=
  match di.GetInstance engineTy n with
  | (.error e, n', evs) => (.error e, n', evs)
  | (.ok (g, _), n', evs) => (.ok ⟨g, di⟩, n', evs)

/-- A permissions assertion (`jwt.go`): a predicate on the token's
permission set.  The Go `map[string]bool` built by
`RequirePermissionsClaim` is read only through indexing, which yields
`false` for absent keys, so it is modelled as its characteristic
function. -/
def PermissionsAssertion := (String → Bool) → Bool

/-- `HasAny` returns an assertion that requires the token to have any of
the given permissions (the loop returns true at the first hit, false after
exhausting the list). -/
def HasAny (permissions : List String) : PermissionsAssertion :=
  fun token => permissions.any fun p => token p

/-- `HasAll` returns an assertion that requires the token to have all of
the given permissions (the loop returns false at the first miss, true
after exhausting the list). -/
def HasAll (permissions : List String) : PermissionsAssertion :=
  fun token => permissions.all fun p => token p

/-- `Or` returns an assertion that requires any of the given assertions to
be true. -/
def Or (assertions : List PermissionsAssertion) : PermissionsAssertion :=
  fun token => assertions.any fun a => a token

/-- `And` returns an assertion that requires all of the given assertions
to be true. -/
def And (assertions : List PermissionsAssertion) : PermissionsAssertion :=
  fun token => assertions.all fun a => a token

/-! Concrete sample registrations, used to exhibit behaviour on explicit
inputs. -/

/-- A sample non-function instance of type `0` (`num = 5`). -/
def vA : Val := ⟨0, 0, 5, false, false⟩

/-- A factory producing fresh instances of type `0`. -/
def gA : GoFn := ⟨[], [0], fun _ m => ([⟨0, m, 5, false, false⟩], m + 1)⟩

/-- A container holding only the singleton `vA`. -/
def singDI : Injector := (NewInjector.AddSingleton vA).1

/-- A factory producing fresh closable instances of type `0`. -/
def closerFactory : GoFn := ⟨[], [0], fun _ m => ([⟨0, m, 0, true, false⟩], m + 1)⟩

/-- A container holding only the closable transient for type `0`. -/
def closerDI : Injector := (NewInjector.AddTransient (.fn closerFactory)).1

/-- A function declaring one parameter of type `0` and one of type `1`. -/
def needsBoth : GoFn := ⟨[0, 1], [], fun _ m => ([], m)⟩

/-- A factory declaring two return values, of types `0` and `1`. -/
def twoOutFactory : GoFn :=
  ⟨[], [0, 1], fun _ m => ([⟨0, m, 0, false, false⟩, ⟨1, m, 0, false, false⟩], m + 1)⟩

/-- A factory producing fresh closable instances of type `3` whose
`Close()` reports an error. -/
def closerErrFactory : GoFn := ⟨[], [3], fun _ m => ([⟨3, m, 0, true, true⟩], m + 1)⟩

/-- A container holding only the erroring closable transient for type `3`. -/
def closerErrDI : Injector := (NewInjector.AddTransient (.fn closerErrFactory)).1

/-- A handler consuming one instance of type `3` and returning a value of
type `5`. -/
def consumeFn : GoFn := ⟨[3], [5], fun _ m => ([⟨5, 0, 1, false, false⟩], m)⟩

/-- An allocating factory for type `2`: every call returns a structurally
identical value (`num = 9`) at a fresh identity. -/
def allocFactory : GoFn := ⟨[], [2], fun _ m => ([⟨2, m, 9, false, false⟩], m + 1)⟩

/-- A container holding only the allocating transient for type `2`. -/
def allocDI : Injector := (NewInjector.AddTransient (.fn allocFactory)).1

/-- A two-parameter adder: leading parameter of type `5`, injected
parameter of type `0`, one return value carrying the sum. -/
def addFn : GoFn :=
  ⟨[5, 0], [5], fun args m =>
    (match args with
     | [x, y] => [⟨5, 0, x.num + y.num, false, false⟩]
     | _ => [], m)⟩

/-- A sample leading argument of type `5` (`num = 1`). -/
def oneVal : Val := ⟨5, 1, 1, false, false⟩

/-- A factory producing fresh engine values. -/
def engineFactory : GoFn :=
  ⟨[], [engineTy], fun _ m => ([⟨engineTy, m, 0, false, false⟩], m + 1)⟩

/-- A container where the engine type is registered only as a transient. -/
def engineTransientDI : Injector := (NewInjector.AddTransient (.fn engineFactory)).1

/-- A sample engine singleton instance. -/
def engineVal : Val := ⟨engineTy, 7, 0, false, false⟩

/-- A container holding the engine singleton. -/
def engineDI : Injector := (NewInjector.AddSingleton engineVal).1

/-! Basic facts about registry lookup. -/

theorem lookupTy_eq_none_iff {α : Type} (t : Ty) (l : List (Ty × α)) :
    lookupTy t l = none ↔ ∀ x ∈ l, x.1 ≠ t := by
  induction l with
  | nil => simp [lookupTy]
  | cons hd tl ih =>
    obtain ⟨t', x⟩ := hd
    by_cases h : t' = t <;> simp [lookupTy, h, ih]

theorem countP_eq_zero_of_lookup_none {α : Type} (t : Ty) (l : List (Ty × α))
    (h : lookupTy t l = none) : (l.countP fun p => p.1 == t) = 0 := by
  rw [List.countP_eq_zero]
  intro a ha
  have := (lookupTy_eq_none_iff t l).1 h a ha
  simpa using this

theorem typeIsRegistered_false_iff (i : Injector) (t : Ty) :
    i.typeIsRegistered t = false ↔
      lookupTy t i.singletons = none ∧ lookupTy t i.transients = none := by
  cases hs : lookupTy t i.singletons <;> cases ht : lookupTy t i.transients <;>
    simp [Injector.typeIsRegistered, hs, ht]

theorem providerCount_eq_zero (i : Injector) (t : Ty)
    (h : i.typeIsRegistered t = false) : providerCount i t = 0 := by
  obtain ⟨hs, ht⟩ := (typeIsRegistered_false_iff i t).1 h
  unfold providerCount
  rw [countP_eq_zero_of_lookup_none t _ hs, countP_eq_zero_of_lookup_none t _ ht]

theorem providerCount_applyOp (i : Injector) (op : RegOp) (t : Ty)
    (h : providerCount i t ≤ 1) : providerCount (applyOp i op) t ≤ 1 := by
  cases op with
  | sing v =>
    show providerCount (i.AddSingleton v).1 t ≤ 1
    unfold Injector.AddSingleton
    by_cases hr : i.typeIsRegistered v.ty
    · simpa [hr] using h
    · by_cases hvt : v.ty = t
      · have h0 : providerCount i t = 0 := by
          rw [← hvt]; exact providerCount_eq_zero i _ (by simpa using hr)
        unfold providerCount at h0 ⊢
        simp only [hr, if_false, Bool.false_eq_true, List.countP_cons] at *
        simp [hvt]
        omega
      · unfold providerCount at h ⊢
        simp only [hr, if_false, Bool.false_eq_true, List.countP_cons] at *
        simp [hvt]
        omega
  | trans g =>
    show providerCount (i.AddTransient g).1 t ≤ 1
    cases g with
    | prim v => simpa [Injector.AddTransient] using h
    | fn f =>
      obtain ⟨ins, outs, body⟩ := f
      unfold Injector.AddTransient
      cases outs with
      | nil => simpa using h
      | cons u rest =>
        by_cases hr : i.typeIsRegistered u
        · simpa [hr] using h
        · by_cases hut : u = t
          · have h0 : providerCount i t = 0 := by
              rw [← hut]; exact providerCount_eq_zero i _ (by simpa using hr)
            unfold providerCount at h0 ⊢
            simp only [hr, if_false, Bool.false_eq_true, List.countP_cons] at *
            simp [hut]
            omega
          · unfold providerCount at h ⊢
            simp only [hr, if_false, Bool.false_eq_true, List.countP_cons] at *
            simp [hut]
            omega

theorem providerCount_regOps_le (ops : List RegOp) (t : Ty) :
    providerCount (regOps ops) t ≤ 1 := by
  suffices h : ∀ i : Injector, providerCount i t ≤ 1 →
      providerCount (ops.foldl applyOp i) t ≤ 1 by
    exact h NewInjector (by simp [providerCount, NewInjector])
  induction ops with
  | nil => intro i h; simpa using h
  | cons op ops ih => intro i h; exact ih _ (providerCount_applyOp i op t h)

/-! Characterizations of `GetInstance` by registry contents. -/

theorem getInstance_sing_eq (i : Injector) (t : Ty) (n : Nat) (v : Val)
    (hs : lookupTy t i.singletons = some v) :
    i.GetInstance t n = (.ok (v, .noop), n, []) := by
  unfold Injector.GetInstance
  rw [hs]

theorem getInstance_trans_eq (i : Injector) (t : Ty) (n : Nat) (f : GoFn)
    (hs : lookupTy t i.singletons = none) (ht : lookupTy t i.transients = some f) :
    i.GetInstance t n =
      (.ok ((f.body [] n).1.headI,
        if (f.body [] n).1.headI.isCloser then Release.closeVal ((f.body [] n).1.headI)
        else Release.noop),
       (f.body [] n).2, [Event.factoryCall t]) := by
  unfold Injector.GetInstance
  rw [hs, ht]
  by_cases hc : (f.body [] n).1.headI.isCloser <;> simp [hc]

theorem getInstance_none_eq (i : Injector) (t : Ty) (n : Nat)
    (hs : lookupTy t i.singletons = none) (ht : lookupTy t i.transients = none) :
    i.GetInstance t n = (.error .typeNotRegistered, n, []) := by
  unfold Injector.GetInstance
  rw [hs, ht]

/-- Every `GetInstance` trace is empty or a single factory call; in
particular it never contains a `callFn` event. -/
theorem getInstance_trace_cases (i : Injector) (t : Ty) (n : Nat) :
    (i.GetInstance t n).2.2 = [] ∨ (i.GetInstance t n).2.2 = [Event.factoryCall t] := by
  cases hs : lookupTy t i.singletons with
  | some v => rw [getInstance_sing_eq i t n v hs]; left; rfl
  | none =>
    cases ht : lookupTy t i.transients with
    | some f => rw [getInstance_trans_eq i t n f hs ht]; right; rfl
    | none => rw [getInstance_none_eq i t n hs ht]; left; rfl

/-- The resolution loop performs no function call: its trace holds only
factory-call events, never a `callFn`. -/
theorem resolveArgs_trace_no_callFn (i : Injector) (tys : List Ty) (n : Nat)
    (a : List Val) : Event.callFn a ∉ (i.resolveArgs tys n).2.2.2 := by
  induction tys generalizing n with
  | nil => simp [Injector.resolveArgs]
  | cons t ts ih =>
    unfold Injector.resolveArgs
    have hget : ∀ b, Event.callFn b ∉ (i.GetInstance t n).2.2 := by
      intro b
      rcases getInstance_trace_cases i t n with h | h <;> rw [h] <;> simp
    rcases hg : i.GetInstance t n with ⟨res, n', evs⟩
    have hevs : ∀ b, Event.callFn b ∉ evs := by
      intro b; have := hget b; rw [hg] at this; exact this
    cases res with
    | error e => simpa using hevs a
    | ok p =>
      obtain ⟨v, rel⟩ := p
      rcases hr : i.resolveArgs ts n' with ⟨res', rels, n'', evs'⟩
      have hevs' : Event.callFn a ∉ evs' := by
        have := ih n'; rw [hr] at this; exact this
      dsimp only
      rw [hr]
      cases res' with
      | error e => simp [hevs a, hevs']
      | ok vs => simp [hevs a, hevs']

/-- Releaser closures emit only `close` events. -/
theorem run_no_callFn (r : Release) (a : List Val) :
    Event.callFn a ∉ r.run := by
  cases r <;> simp [Release.run]

/-- Running the collected releasers closes each captured closable instance
exactly as many times as its releaser was collected. -/
theorem count_close_flatMap (rels : List Release) (v : Val) :
    (rels.flatMap Release.run).count (Event.close v) = rels.count (Release.closeVal v) := by
  induction rels with
  | nil => rfl
  | cons r rs ih =>
    cases r with
    | noop => simpa [Release.run, List.count_cons] using ih
    | closeVal w =>
      by_cases hw : w = v
      · subst hw
        simp [Release.run, List.count_cons, ih]
      · simp [Release.run, List.count_cons, ih, hw]

theorem flatMap_run_replicate_noop (k : Nat) :
    (List.replicate k Release.noop).flatMap Release.run = [] := by
  induction k with
  | zero => rfl
  | succ k ih => simp [List.replicate_succ, Release.run, ih]

/-- When every requested type has a registered singleton, the resolution
loop returns exactly those singletons in declaration order, collects only
no-op releasers, and neither allocates nor emits events. -/
theorem resolveArgs_singletons (i : Injector) (tys : List Ty) (vs : List Val) (n : Nat)
    (h : tys.map (fun t => lookupTy t i.singletons) = vs.map some) :
    i.resolveArgs tys n = (.ok vs, List.replicate tys.length Release.noop, n, []) := by
  induction tys generalizing vs n with
  | nil =>
    cases vs with
    | nil => rfl
    | cons v vs' => simp at h
  | cons t ts ih =>
    cases vs with
    | nil => simp at h
    | cons v vs' =>
      simp only [List.map_cons, List.cons.injEq] at h
      obtain ⟨h1, h2⟩ := h
      unfold Injector.resolveArgs
      rw [getInstance_sing_eq i t n v h1]
      dsimp only
      rw [ih vs' n h2]
      simp [List.replicate_succ']

/-! Claim theorems. -/

/-- C2: across any sequence of `AddSingleton` and `AddTransient` calls on a
fresh injector, at most one provider (singleton or transient) exists per
type identifier; a registration for a type that already has a provider of
either kind returns `TypeAlreadyRegistered` and leaves the registry
unchanged, and resolution of that type afterwards behaves exactly as before
the failed registration. -/
theorem registry_at_most_one_provider (ops : List RegOp) (t : Ty) (v : Val)
    (g : GoFn) (u : Ty) (rest : List Ty) (m : Nat) :
    providerCount (regOps ops) t ≤ 1 ∧
    ((regOps ops).typeIsRegistered v.ty = true →
      (regOps ops).AddSingleton v = (regOps ops, .err .typeAlreadyRegistered)) ∧
    (g.outs = u :: rest → (regOps ops).typeIsRegistered u = true →
      (regOps ops).AddTransient (.fn g) = (regOps ops, .err .typeAlreadyRegistered)) ∧
    ((regOps ops).typeIsRegistered v.ty = true →
      ((regOps ops).AddSingleton v).1.GetInstance t m = (regOps ops).GetInstance t m) := by
  refine ⟨providerCount_regOps_le ops t, ?_, ?_, ?_⟩
  · intro h
    simp [Injector.AddSingleton, h]
  · intro hout h
    simp [Injector.AddTransient, hout, h]
  · intro h
    simp [Injector.AddSingleton, h]

/-- C5: once `AddSingleton` has registered an instance, `GetInstance` on
that instance's type returns the identical registered instance (identity-
equal, including its allocation identity), with the no-op releaser and no
error, on every call and in every allocator state. -/
theorem singleton_identity (i i' : Injector) (v : Val) (n : Nat)
    (h : i.AddSingleton v = (i', Outcome.ok)) :
    i'.GetInstance v.ty n = (.ok (v, Release.noop), n, []) := by
  unfold Injector.AddSingleton at h
  by_cases hr : i.typeIsRegistered v.ty
  · simp [hr] at h
  · simp only [hr, if_false, Bool.false_eq_true, Prod.mk.injEq] at h
    rw [← h.1]
    simp [Injector.GetInstance, lookupTy]

/-- C8: for a type registered neither as a singleton nor as a transient,
`GetInstance` fails with `TypeNotRegistered`, returning no instance and no
releaser and leaving the allocator state and trace untouched. -/
theorem unregistered_type_not_resolvable (i : Injector) (t : Ty) (n : Nat)
    (hs : lookupTy t i.singletons = none) (ht : lookupTy t i.transients = none) :
    i.GetInstance t n = (.error .typeNotRegistered, n, []) := by
  simp [Injector.GetInstance, hs, ht]

theorem addTransient_fn_ne_invalid (i : Injector) (f : GoFn) :
    (i.AddTransient (.fn f)).2 ≠ .err .invalidFactory := by
  obtain ⟨ins, outs, body⟩ := f
  cases outs with
  | nil => simp [Injector.AddTransient]
  | cons u rest =>
    by_cases hr : i.typeIsRegistered u <;> simp [Injector.AddTransient, hr]

/-- C1 (amended): when resolution of a remaining parameter fails, `Invoke`
aborts and returns that error and the target function is never called, but
the release callbacks already deferred for transient instances resolved for
earlier parameters DO fire, most recently deferred first, as part of the
error return. -/
theorem invoke_abort_on_resolution_failure (i : Injector) (f : GoFn)
    (args : List Val) (n : Nat) (e : Err) (rels : List Release) (n' : Nat)
    (evs : List Event)
    (h : i.resolveArgs (f.ins.drop args.length) n = (.error e, rels, n', evs)) :
    i.Invoke (.fn f) args n = (.error e, n', evs ++ rels.flatMap Release.run) ∧
    (∀ a, Event.callFn a ∉ (i.Invoke (.fn f) args n).2.2) ∧
    (∀ v, Release.closeVal v ∈ rels →
      Event.close v ∈ (i.Invoke (.fn f) args n).2.2) := by
  have hinv : i.Invoke (.fn f) args n = (.error e, n', evs ++ rels.flatMap Release.run) := by
    unfold Injector.Invoke
    dsimp only
    rw [h]
  refine ⟨hinv, ?_, ?_⟩
  · intro a
    rw [hinv]
    simp only [List.mem_append, not_or]
    refine ⟨?_, ?_⟩
    · have := resolveArgs_trace_no_callFn i (f.ins.drop args.length) n a
      rw [h] at this
      exact this
    · intro hmem
      rcases List.mem_flatMap.1 hmem with ⟨r, -, hr⟩
      exact run_no_callFn r a hr
  · intro v hv
    rw [hinv]
    simp only [List.mem_append]
    right
    exact List.mem_flatMap.2 ⟨Release.closeVal v, hv, by simp [Release.run]⟩

/-- C3 (amended): `AddTransient` returns `InvalidFactory` — registering
nothing — exactly when its argument is not a callable value.  A callable
argument never yields `InvalidFactory`: its produced type is taken from its
first declared return type even when it declares several return values
(and a callable declaring zero return values makes reflect panic rather
than produce an error). -/
theorem addTransient_invalidFactory_iff (i : Injector) (g : GoValue) :
    ((i.AddTransient g).2 = .err .invalidFactory ↔ ∀ f : GoFn, g ≠ .fn f) ∧
    ((i.AddTransient g).2 = .err .invalidFactory → (i.AddTransient g).1 = i) := by
  cases g with
  | prim v =>
    constructor
    · constructor
      · intro _ f hf
        cases hf
      · intro _
        rfl
    · intro _
      rfl
  | fn f =>
    constructor
    · constructor
      · intro h
        exact absurd h (addTransient_fn_ne_invalid i f)
      · intro h
        exact absurd rfl (h f)
    · intro h
      exact absurd h (addTransient_fn_ne_invalid i f)

/-- C4: when every remaining parameter resolves, `Invoke` calls the target
with the assembled arguments and afterwards runs every collected release
callback exactly once (each captured closable instance is closed exactly
as many times as its releaser was collected, and always after the `callFn`
event); the releaser of a closable transient instance performs the
disposal, and the disposal error (`closeErr` of the captured value) never
reaches the result, which stays the function's own return values. -/
theorem invoke_releases_after_call (i : Injector) (f : GoFn) (args : List Val)
    (n : Nat) (vs : List Val) (rels : List Release) (n' : Nat) (evs : List Event)
    (h : i.resolveArgs (f.ins.drop args.length) n = (.ok vs, rels, n', evs)) :
    i.Invoke (.fn f) args n =
      (.ok (f.body (args ++ vs) n').1, (f.body (args ++ vs) n').2,
        evs ++ Event.callFn (args ++ vs) :: rels.flatMap Release.run) ∧
    (∀ v, (rels.flatMap Release.run).count (Event.close v) =
      rels.count (Release.closeVal v)) ∧
    (∀ t g m, lookupTy t i.singletons = none → lookupTy t i.transients = some g →
      (g.body [] m).1.headI.isCloser = true →
      i.GetInstance t m =
        (.ok ((g.body [] m).1.headI, Release.closeVal ((g.body [] m).1.headI)),
          (g.body [] m).2, [Event.factoryCall t])) := by
  refine ⟨?_, fun v => count_close_flatMap rels v, ?_⟩
  · unfold Injector.Invoke
    dsimp only
    rw [h]
  · intro t g m hs ht hc
    rw [getInstance_trans_eq i t m g hs ht, hc]
    simp

/-- C6: a registered transient is produced by a fresh factory call on every
resolution — each `GetInstance` emits a new `factoryCall` event, returns
the factory's first return value, and advances the allocator — so for an
allocating factory two resolutions of the same type, and in particular the
two injections when the type appears twice among one `Invoke`'s parameters,
yield instances with distinct identities even though they are structurally
identical. -/
theorem transient_resolutions_distinct (i : Injector) (t : Ty) (f : GoFn)
    (n : Nat) (produce : Nat → Val)
    (hs : lookupTy t i.singletons = none) (ht : lookupTy t i.transients = some f)
    (halloc : ∀ m, f.body [] m = ([produce m], m + 1))
    (hid : ∀ m, (produce m).id = m) :
    (∀ m, i.GetInstance t m =
      (.ok (produce m,
        if (produce m).isCloser then Release.closeVal (produce m) else Release.noop),
       m + 1, [Event.factoryCall t])) ∧
    (i.resolveArgs [t, t] n).1 = .ok [produce n, produce (n + 1)] ∧
    (produce n).id ≠ (produce (n + 1)).id := by
  have hg : ∀ m, i.GetInstance t m =
      (.ok (produce m,
        if (produce m).isCloser then Release.closeVal (produce m) else Release.noop),
       m + 1, [Event.factoryCall t]) := by
    intro m
    rw [getInstance_trans_eq i t m f hs ht, halloc m]
    simp
  refine ⟨hg, ?_, ?_⟩
  · unfold Injector.resolveArgs
    rw [hg n]
    dsimp only
    unfold Injector.resolveArgs
    rw [hg (n + 1)]
    dsimp only
    unfold Injector.resolveArgs
    rfl
  · rw [hid n, hid (n + 1)]
    omega

/-- C7: `Invoke` assembles the call frame as the leading arguments in the
order given followed by one resolved instance per remaining declared
parameter type in declaration order, calls the target on exactly that
frame, and returns the target's return values unchanged as an ordered
sequence. -/
theorem invoke_frame_declaration_order (i : Injector) (f : GoFn)
    (args vs : List Val) (n : Nat)
    (hlen : args.length ≤ f.ins.length)
    (hvs : (f.ins.drop args.length).map (fun t => lookupTy t i.singletons) =
      vs.map some) :
    i.Invoke (.fn f) args n =
      (.ok (f.body (args ++ vs) n).1, (f.body (args ++ vs) n).2,
        [Event.callFn (args ++ vs)]) := by
  have hres := resolveArgs_singletons i (f.ins.drop args.length) vs n hvs
  unfold Injector.Invoke
  dsimp only
  rw [hres]
  simp [flatMap_run_replicate_noop]

/-- C9 (amended): `NewRouter` fails with the container's `TypeNotRegistered`
error, producing no adapter, exactly when the engine type has no provider
of either kind; with the engine singleton registered it succeeds and holds
that very singleton instance. -/
theorem newRouter_engine_registration (di : Injector) (n : Nat) (g : Val) :
    (lookupTy engineTy di.singletons = none → lookupTy engineTy di.transients = none →
      NewRouter di n = (.error .typeNotRegistered, n, [])) ∧
    (lookupTy engineTy di.singletons = some g →
      NewRouter di n = (.ok ⟨g, di⟩, n, [])) := by
  constructor
  · intro hs ht
    unfold NewRouter
    rw [getInstance_none_eq di engineTy n hs ht]
  · intro hs
    unfold NewRouter
    rw [getInstance_sing_eq di engineTy n g hs]

/-- C10: on every permission set, `HasAll` of zero permissions and `And` of
zero assertions accept, while `HasAny` of zero permissions and `Or` of zero
assertions reject. -/
theorem empty_assertion_units (token : String → Bool) :
    HasAll [] token = true ∧ And [] token = true ∧
    HasAny [] token = false ∧ Or [] token = false :=
  ⟨rfl, rfl, rfl, rfl⟩

/-! Counterexamples and witnesses on concrete inputs. -/

/-- C1 counterexample: with a closable transient registered for type `0`
and nothing registered for type `1`, invoking a function with parameters
`(0, 1)` fails while resolving the second parameter, yet the release
callback of the already-resolved first instance fires — its `close` event
is in the trace — contradicting the claim that no release callback fires
for instances resolved before the failure. -/
theorem invoke_failure_releases_counterexample :
    (closerDI.Invoke (.fn needsBoth) [] 0).1 = .error .typeNotRegistered ∧
    Event.close ⟨0, 0, 0, true, false⟩ ∈ (closerDI.Invoke (.fn needsBoth) [] 0).2.2 := by
  have h : closerDI.Invoke (.fn needsBoth) [] 0 =
      (.error .typeNotRegistered, 1,
        [Event.factoryCall 0, Event.close ⟨0, 0, 0, true, false⟩]) := rfl
  rw [h]
  exact ⟨rfl, by simp⟩

theorem invoke_abort_on_resolution_failure_witness :
    closerDI.Invoke (.fn needsBoth) [] 0 =
      (.error .typeNotRegistered, 1,
        [Event.factoryCall 0, Event.close ⟨0, 0, 0, true, false⟩]) ∧
    (∀ a, Event.callFn a ∉ (closerDI.Invoke (.fn needsBoth) [] 0).2.2) :=
  have h := invoke_abort_on_resolution_failure closerDI needsBoth [] 0
    .typeNotRegistered [Release.closeVal ⟨0, 0, 0, true, false⟩] 1
    [Event.factoryCall 0] rfl
  ⟨h.1, h.2.1⟩

theorem registry_at_most_one_provider_witness :
    providerCount (regOps [RegOp.sing vA]) 0 ≤ 1 ∧
    (regOps [RegOp.sing vA]).AddSingleton vA =
      (regOps [RegOp.sing vA], .err .typeAlreadyRegistered) ∧
    (regOps [RegOp.sing vA]).AddTransient (.fn gA) =
      (regOps [RegOp.sing vA], .err .typeAlreadyRegistered) ∧
    ((regOps [RegOp.sing vA]).AddSingleton vA).1.GetInstance 0 0 =
      (regOps [RegOp.sing vA]).GetInstance 0 0 :=
  have h := registry_at_most_one_provider [RegOp.sing vA] 0 vA gA 0 [] 0
  ⟨h.1, h.2.1 rfl, h.2.2.1 rfl rfl, h.2.2.2 rfl⟩

/-- C3 counterexample: a callable factory declaring two return values does
not yield `InvalidFactory` — it registers successfully (under its first
return type) — contradicting the claim that any callable without a single
return type is rejected. -/
theorem addTransient_two_returns_counterexample :
    twoOutFactory.outs.length = 2 ∧
    (NewInjector.AddTransient (.fn twoOutFactory)).2 = .ok :=
  ⟨rfl, rfl⟩

theorem addTransient_invalidFactory_iff_witness :
    (NewInjector.AddTransient (.prim vA)).2 = .err .invalidFactory ∧
    (NewInjector.AddTransient (.prim vA)).1 = NewInjector :=
  have h := addTransient_invalidFactory_iff NewInjector (.prim vA)
  have h1 : (NewInjector.AddTransient (.prim vA)).2 = .err .invalidFactory :=
    h.1.mpr fun f hf => by cases hf
  ⟨h1, h.2 h1⟩

theorem invoke_releases_after_call_witness :
    closerErrDI.Invoke (.fn consumeFn) [] 0 =
      (.ok [⟨5, 0, 1, false, false⟩], 1,
        [Event.factoryCall 3, Event.callFn [⟨3, 0, 0, true, true⟩],
          Event.close ⟨3, 0, 0, true, true⟩]) ∧
    ([Release.closeVal ⟨3, 0, 0, true, true⟩].flatMap Release.run).count
        (Event.close ⟨3, 0, 0, true, true⟩) = 1 :=
  have h := invoke_releases_after_call closerErrDI consumeFn [] 0
    [⟨3, 0, 0, true, true⟩] [Release.closeVal ⟨3, 0, 0, true, true⟩] 1
    [Event.factoryCall 3] rfl
  ⟨h.1, h.2.1 ⟨3, 0, 0, true, true⟩⟩

theorem singleton_identity_witness :
    singDI.GetInstance vA.ty 3 = (.ok (vA, Release.noop), 3, []) :=
  singleton_identity NewInjector singDI vA 3 rfl

theorem transient_resolutions_distinct_witness :
    allocDI.GetInstance 2 0 =
      (.ok (⟨2, 0, 9, false, false⟩, Release.noop), 1, [Event.factoryCall 2]) ∧
    (allocDI.resolveArgs [2, 2] 0).1 =
      .ok [⟨2, 0, 9, false, false⟩, ⟨2, 1, 9, false, false⟩] ∧
    (⟨2, 0, 9, false, false⟩ : Val).id ≠ (⟨2, 1, 9, false, false⟩ : Val).id :=
  have h := transient_resolutions_distinct allocDI 2 allocFactory 0
    (fun m => ⟨2, m, 9, false, false⟩) rfl rfl (fun _ => rfl) (fun _ => rfl)
  ⟨h.1 0, h.2.1, h.2.2⟩

theorem invoke_frame_declaration_order_witness :
    singDI.Invoke (.fn addFn) [oneVal] 0 =
      (.ok [⟨5, 0, 6, false, false⟩], 0, [Event.callFn [oneVal, vA]]) :=
  invoke_frame_declaration_order singDI addFn [oneVal] [vA] 0 (by decide) rfl

theorem unregistered_type_not_resolvable_witness :
    NewInjector.GetInstance 42 0 = (.error .typeNotRegistered, 0, []) :=
  unregistered_type_not_resolvable NewInjector 42 0 rfl rfl

/-- C9 counterexample: a container in which the engine type is registered
only as a transient has no engine singleton, yet `NewRouter` succeeds —
contradicting the claim that construction fails with `TypeNotRegistered`
whenever the engine singleton is absent. -/
theorem newRouter_transient_engine_counterexample :
    lookupTy engineTy engineTransientDI.singletons = none ∧
    (NewRouter engineTransientDI 0).1 =
      .ok ⟨⟨engineTy, 0, 0, false, false⟩, engineTransientDI⟩ :=
  ⟨rfl, rfl⟩

theorem newRouter_engine_registration_witness :
    NewRouter NewInjector 0 = (.error .typeNotRegistered, 0, []) ∧
    NewRouter engineDI 0 = (.ok ⟨engineVal, engineDI⟩, 0, []) :=
  ⟨(newRouter_engine_registration NewInjector 0 engineVal).1 rfl rfl,
   (newRouter_engine_registration engineDI 0 engineVal).2 rfl⟩

end Backend
